import Mathlib

/-!
Verification of the eggstreme-shelly mesh generator against its specification.

The geometry kernel (package `vec`), the ellipsoid surface model
(package `ellipsoid`) and the mesh graph / plane cutter (`eshell.go`) are
embedded shallowly.  Floating-point values are modelled as real numbers, so
all arithmetic facts proved here are exact-real statements about the
algorithms' formulas.  Go slices become lists, array indices stay natural
numbers, and Go's multi-value `(value, ok)` returns become `Option`.
`log.Fatal` (process termination) is modelled by the dedicated
`Failure.fatalAbort` constructor so that aborts stay distinguishable from
ordinary returns.
-/

namespace Shelly

noncomputable section

/-! ### Vectors: `SimVec` from the `vec` package, over ℝ -/

/-- A naive 3-vector (`SimVec` in `vec`), components modelled as reals. -/
@[ext]
structure Vec3 where
  x : ℝ
  y : ℝ
  z : ℝ

instance : Inhabited Vec3 := ⟨⟨0, 0, 0⟩⟩

/-- `SimVec.Add` -/
def Vec3.add (v w : Vec3) : Vec3 := ⟨v.x + w.x, v.y + w.y, v.z + w.z⟩

/-- `SimVec.Subtract` -/
def Vec3.sub (v w : Vec3) : Vec3 := ⟨v.x - w.x, v.y - w.y, v.z - w.z⟩

/-- `SimVec.Scale` -/
def Vec3.scale (v : Vec3) (f : ℝ) : Vec3 := ⟨v.x * f, v.y * f, v.z * f⟩

/-- `SimVec.Dot` -/
def Vec3.dot (v w : Vec3) : ℝ := v.x * w.x + v.y * w.y + v.z * w.z

/-- `SimVec.Cross` -/
def Vec3.cross (v w : Vec3) : Vec3 :=
  ⟨v.y * w.z - v.z * w.y, v.z * w.x - v.x * w.z, v.x * w.y - v.y * w.x⟩

/-- `SimVec.LengthSq` -/
def Vec3.lengthSq (v : Vec3) : ℝ := v.x * v.x + v.y * v.y + v.z * v.z

/-- `SimVec.Length` -/
def Vec3.length (v : Vec3) : ℝ := Real.sqrt v.lengthSq

/-- `SimVec.Normalized`: returns a copy scaled by `1/length`
(component-wise division by the length, as in the source). -/
def Vec3.normalized (v : Vec3) : Vec3 :=
  let l := v.length
  ⟨v.x / l, v.y / l, v.z / l⟩

/-- `SimVec.SetZ` has a VALUE receiver in the Go source: the assignment
`v.z = newVal` lands on the method's local copy of the receiver.  This
definition is that local copy at the end of the method body; the caller's
vector is unchanged by the call, and the copy is discarded. -/
def Vec3.setZ (v : Vec3) (newVal : ℝ) : Vec3 := { v with z := newVal }

/-! ### Ellipsoid (`ellipsoid/elli.go`) -/

/-- `Ellipsoid`: semi-axes plus the precomputed time-saver fields that
`Ellipsoid.Set` fills in. -/
structure Ellipsoid where
  L : ℝ
  W : ℝ
  H : ℝ
  LL : ℝ
  WW : ℝ
  HH : ℝ
  oL : ℝ
  oW : ℝ
  oH : ℝ
  oLL : ℝ
  oWW : ℝ
  oHH : ℝ

/-- `Ellipsoid.Set` -/
def Ellipsoid.set (l w h : ℝ) : Ellipsoid :=
  { L := l, W := w, H := h
    LL := l * l, WW := w * w, HH := h * h
    oL := 1 / l, oW := 1 / w, oH := 1 / h
    oLL := 1 / (l * l), oWW := 1 / (w * w), oHH := 1 / (h * h) }

/-- `Ellipsoid.Surface`: normalize the direction, scale by
`k = sqrt(1 / (vx²/L² + vy²/W² + vz²/H²))`. -/
def Ellipsoid.Surface (e : Ellipsoid) (dir : Vec3) : Vec3 :=
  let v := dir.normalized
  let k := Real.sqrt (1 / (v.x * v.x * e.oLL + v.y * v.y * e.oWW + v.z * v.z * e.oHH))
  v.scale k

/-- The refinement loop of `Ellipsoid.PointDistant`, with the remaining
iteration budget (`10 - tries` in the source) as fuel.  Returns the final
estimate together with the number of iterations executed.  The Go guard is
`delta > tolerance && tries < 10` where `delta` is
`|L - actL|` before the loop and `||estimate'-p| - L|` inside it; both equal
`||est - p| - L|` for the current estimate. -/
def pdLoop (e : Ellipsoid) (p : Vec3) (L tolerance : ℝ) : ℕ → Vec3 → Vec3 × ℕ
  | 0, est => (est, 0)
  | fuel + 1, est =>
    if |(est.sub p).length - L| > tolerance then
      let diff := est.sub p
      let actL := diff.length
      let est2 := e.Surface (p.add (diff.scale (L / actL)))
      let r := pdLoop e p L tolerance fuel est2
      (r.1, r.2 + 1)
    else (est, 0)

/-- The initial estimate of `Ellipsoid.PointDistant`: circular-chord
approximation in the plane of `p` and `g`, projected through `Surface`. -/
def Ellipsoid.pdInit (e : Ellipsoid) (p g : Vec3) (L : ℝ) : Vec3 :=
  let P := p.length
  let PP := P * P
  let gN := g.normalized
  let pN := p.normalized
  let LL := L * L
  let P2 := P * 2
  let K := LL / P2
  let M := Real.sqrt (LL * (1 - LL / (4 * PP)))
  let wN := gN.cross pN
  let vN := pN.cross wN
  let s := (p.sub (pN.scale K)).add (vN.scale M)
  e.Surface s

/-- `Ellipsoid.PointDistant`: initial estimate then at most 10 refinement
iterations; returns only the estimate (no success flag). -/
def Ellipsoid.PointDistant (e : Ellipsoid) (p g : Vec3) (L tolerance : ℝ) : Vec3 :=
  (pdLoop e p L tolerance 10 (e.pdInit p g L)).1

/-- Number of refinement iterations `PointDistant` executes. -/
def Ellipsoid.pdTries (e : Ellipsoid) (p g : Vec3) (L tolerance : ℝ) : ℕ :=
  (pdLoop e p L tolerance 10 (e.pdInit p g L)).2

/-! ### Geometry primitives (`vec` package, plane/line/segment revision) -/

/-- The parallelism epsilon of the live `vec` revision (the one defining
`NormalSide`, used by `cutter.go`); the spec's ε.  An older copy of the same
file (`vec/geometry.go`) carries `1e-40` with otherwise identical logic. -/
def mayAsWellBeZero : ℝ := 1e-12

/-- `Line`: a point on the line and a normalized direction. -/
structure Line where
  PointOn : Vec3
  AlongN : Vec3

/-- `NewLine` normalizes the direction. -/
def Line.new (newOn newAlong : Vec3) : Line := ⟨newOn, newAlong.normalized⟩

/-- `Segment`: a line plus the open parameter interval `(MinD, MaxD)`. -/
structure Segment where
  line : Line
  MinD : ℝ
  MaxD : ℝ

/-- `Plane`: a point in the plane and a normalized normal. -/
structure Plane where
  PointOn : Vec3
  Normal : Vec3

/-- `NewPlane` normalizes the normal. -/
def Plane.new (newPoint newNormal : Vec3) : Plane := ⟨newPoint, newNormal.normalized⟩

open Classical in
/-- `Plane.IntersectLine`: `hits = false` iff `|dot(lineDir, normal)|` is
below `mayAsWellBeZero`; otherwise solve for the parameter `d` and return the
point.  Go's `(where, hits)` pair with zero-value `where` becomes `Option`. -/
def Plane.IntersectLine (p : Plane) (l : Line) : Option Vec3 :=
  let ldotn := l.AlongN.dot p.Normal
  if |ldotn| < mayAsWellBeZero then none
  else
    let d := ((p.PointOn.sub l.PointOn).dot p.Normal) / ldotn
    some (l.PointOn.add (l.AlongN.scale d))

open Classical in
/-- `Plane.IntersectSegment`: reuse the line test, then reject when the solved
parameter `howFar` is `≤ MinD` or `≥ MaxD` (open at both ends). -/
def Plane.IntersectSegment (p : Plane) (s : Segment) : Option Vec3 :=
  match p.IntersectLine s.line with
  | none => none
  | some whu =>
    let howFar := (whu.sub s.line.PointOn).dot s.line.AlongN
    if howFar ≤ s.MinD ∨ howFar ≥ s.MaxD then none else some whu

/-! ### Mesh graph (`eshell.go`) -/

/-- The positional constraint functions of the program (`OnEllipsoid`,
`OnBase`), as a tagged type so they can be stored on vertices.  Go stores
function pointers; these two are the only constraint functions defined. -/
inductive Constraint where
  | onEllipsoid : Constraint
  | onBase : Constraint
deriving DecidableEq

/-- `Vertex` (the fields the core algorithms read; GUI-only fields omitted).
The back-pointer `Shell *EShell` is replaced by passing the shell
explicitly, as the Go methods themselves do for `Update`. -/
structure Vertex where
  serial : ℕ
  position : Vec3
  edges : List ℕ
  panels : List ℕ
  alive : Bool
  constraints : List Constraint

instance : Inhabited Vertex := ⟨⟨0, default, [], [], false, []⟩⟩

/-- `Edge` (core fields). -/
structure Edge where
  serial : ℕ
  vertices : List ℕ
  panels : List ℕ
  along : Vec3
  length : ℝ
  tension : ℝ
  alive : Bool

instance : Inhabited Edge := ⟨⟨0, [], [], default, 0, 0, false⟩⟩

/-- `Panel` (core fields). -/
structure Panel where
  serial : ℕ
  corners : List ℕ
  edges : List ℕ
  normal : Vec3
  initNormal : Vec3
  area : ℝ
  alive : Bool

instance : Inhabited Panel := ⟨⟨0, [], [], default, default, 0, false⟩⟩

/-- `EShell`: the arena of vertices, edges and panels. -/
structure EShell where
  E : Ellipsoid
  Base : ℝ
  vertices : List Vertex
  edges : List Edge
  panels : List Panel

/-- Index read of a vertex (Go `e.Vertices[i]`; in-bounds on all uses here). -/
def EShell.getV (e : EShell) (i : ℕ) : Vertex := e.vertices.getD i default

/-- Index read of an edge (Go `e.Edges[i]`). -/
def EShell.getE (e : EShell) (i : ℕ) : Edge := e.edges.getD i default

/-- Index read of a panel (Go `e.Panels[i]`). -/
def EShell.getP (e : EShell) (i : ℕ) : Panel := e.panels.getD i default

/-- In-place update of one list element (Go `e.Xs[i].field = ...`). -/
def listModify {α : Type} : List α → ℕ → (α → α) → List α
  | [], _, _ => []
  | a :: as, 0, f => f a :: as
  | a :: as, n + 1, f => a :: listModify as n f

/-- Mutate vertex `i` of the shell. -/
def EShell.updV (e : EShell) (i : ℕ) (f : Vertex → Vertex) : EShell :=
  { e with vertices := listModify e.vertices i f }

/-- Mutate edge `i` of the shell. -/
def EShell.updE (e : EShell) (i : ℕ) (f : Edge → Edge) : EShell :=
  { e with edges := listModify e.edges i f }

/-- Mutate panel `i` of the shell. -/
def EShell.updP (e : EShell) (i : ℕ) (f : Panel → Panel) : EShell :=
  { e with panels := listModify e.panels i f }

/-- `appendUnique` from `shelly.go`. -/
def appendUnique (l : List ℕ) (x : ℕ) : List ℕ :=
  if x ∈ l then l else l ++ [x]

/-- Interpretation of a constraint tag as the corresponding Go function.
`OnEllipsoid` projects onto the surface; `OnBase` calls `p.SetZ(e.Base)` on a
value receiver and returns `p` — see `OnBase` below. -/
def applyConstraint (e : EShell) (c : Constraint) (p : Vec3) : Vec3 :=
  match c with
  | Constraint.onEllipsoid => e.E.Surface p
  | Constraint.onBase =>
    let _copy := p.setZ e.Base
    p

/-- `OnBase` from `eshell.go`: `p.SetZ(e.Base); return p`.  `SetZ` has a value
receiver, so the write lands on a discarded copy. -/
def OnBase (e : EShell) (p : Vec3) : Vec3 :=
  let _copy := p.setZ e.Base
  p

/-- The full constraint chain, applied in list order (`Vertex.Move`'s loop). -/
def applyChain (e : EShell) (cs : List Constraint) (p : Vec3) : Vec3 :=
  cs.foldl (fun dest c => applyConstraint e c dest) p

/-- `Vertex.Move`: run the chain of the vertex's stored constraints, store the
result as the position, return it. -/
def Vertex.move (e : EShell) (v : Vertex) (p : Vec3) : Vertex × Vec3 :=
  let dest := applyChain e v.constraints p
  ({ v with position := dest }, dest)

/-- `EShell.AddVertex`: appends a vertex with the given position.  Note that
the Go source builds `Vertex{Position: v, Serial: len, Alive: true}` and never
writes the `cs` argument anywhere: the constraint list parameter is dropped. -/
def EShell.addVertex (e : EShell) (v : Vec3) (_cs : List Constraint) : EShell × ℕ :=
  let newV : Vertex :=
    { serial := e.vertices.length, position := v, edges := [], panels := []
      alive := true, constraints := [] }
  ({ e with vertices := e.vertices ++ [newV] }, newV.serial)

/-- `EShell.AddEdge`: append an edge from `vs[0]` to `vs[1]` and record it on
both endpoint vertices. -/
def EShell.addEdge (e : EShell) (vs : List ℕ) : EShell × ℕ :=
  let al := ((e.getV (vs.getD 1 0)).position).sub (e.getV (vs.getD 0 0)).position
  let eno := e.edges.length
  let newE : Edge :=
    { serial := eno, vertices := vs, panels := [], along := al
      length := al.length, tension := 0, alive := true }
  let e1 := { e with edges := e.edges ++ [newE] }
  let e2 := vs.foldl
    (fun acc v => acc.updV v (fun vt => { vt with edges := appendUnique vt.edges eno })) e1
  (e2, eno)

open Classical in
/-- `EShell.AddPanel`: compute area and normal from the first two edges' along
vectors, flip the normal outward against the first edge's first vertex, then
record the panel on every edge and vertex while accumulating the corner list
with `appendUnique`. -/
def EShell.addPanel (e : EShell) (es : List ℕ) : EShell × ℕ :=
  let crx := ((e.getE (es.getD 0 0)).along).cross (e.getE (es.getD 1 0)).along
  let area := crx.length / 2
  let n0 := crx.normalized
  let v0 := (e.getV ((e.getE (es.getD 0 0)).vertices.getD 0 0)).position
  let normal := if n0.dot v0 < 0 then n0.scale (-1) else n0
  let serial := e.panels.length
  let step : EShell × List ℕ → ℕ → EShell × List ℕ := fun acc f =>
    let acc1 := acc.1.updE f (fun ed => { ed with panels := appendUnique ed.panels serial })
    (acc1.getE f).vertices.foldl
      (fun ac v =>
        (ac.1.updV v (fun vt => { vt with panels := appendUnique vt.panels serial }),
         appendUnique ac.2 v))
      (acc1, acc.2)
  let r := es.foldl step (e, [])
  let p : Panel :=
    { serial := serial, corners := r.2, edges := es, normal := normal
      initNormal := normal, area := area, alive := true }
  ({ r.1 with panels := r.1.panels ++ [p] }, serial)

/-- `EShell.RemovePanel`: soft delete. -/
def EShell.removePanel (e : EShell) (pNo : ℕ) : EShell :=
  e.updP pNo (fun p => { p with alive := false })

/-- A failure channel.  `fatalAbort` models `log.Fatal`: the message is
printed and the PROCESS TERMINATES; there is no recoverable-error variant
because the Go code never returns error values. -/
inductive Failure where
  | fatalAbort : String → Failure

/-- The message `Edge.From` prints before `log.Fatal`. -/
def fromFatalMsg (v sNo : ℕ) : String :=
  s!"Geometry error: vertex {v} is not on edge {sNo} at all"

/-- `CheckGeometry` message: wrong edge count on a vertex. -/
def vertexEdgesMsg (sNo ne : ℕ) : String :=
  s!"Geometry error: vertex {sNo} is on an incorrect number of edges: {ne}"

/-- `CheckGeometry` message: wrong panel count on a vertex. -/
def vertexPanelsMsg (sNo np : ℕ) : String :=
  s!"Geometry error: vertex {sNo} is on an incorrect number of panels: {np}"

/-- `CheckGeometry` message: wrong vertex count on an edge. -/
def edgeVerticesMsg (sNo nv : ℕ) : String :=
  s!"Geometry error: edge {sNo} should have 2 vertices, has {nv}"

/-- `CheckGeometry` message: wrong panel count on an edge. -/
def edgePanelsMsg (sNo np : ℕ) : String :=
  s!"Geometry error: edge {sNo} should be on 1 or 2 panels, is on {np}"

/-- `CheckGeometry` message: wrong corner count on a panel. -/
def panelCornersMsg (sNo nv : ℕ) : String :=
  s!"Geometry error: Panel {sNo} should have 3 corners, has {nv}"

/-- `CheckGeometry` message: wrong edge count on a panel. -/
def panelEdgesMsg (sNo ne : ℕ) : String :=
  s!"Geometry error: panel {sNo} should have 3 edges, has {ne}"

/-- The error `CutFloor` prints for an intersection count other than 0 or 2,
naming the offending panel. -/
def cutEndsMsg (pNo n : ℕ) : String :=
  s!"ERROR: Panel {pNo} has {n} cut ends"

/-- `Edge.From`: the along vector pointing away from vertex `v`; if `v` is
neither endpoint, the Go code prints a geometry error and calls `log.Fatal`. -/
def Edge.From (ed : Edge) (v : ℕ) : Except Failure Vec3 :=
  let fr := ed.along
  if ed.vertices.getD 0 0 ≠ v then
    if ed.vertices.getD 1 0 ≠ v then
      Except.error (Failure.fatalAbort (fromFatalMsg v ed.serial))
    else Except.ok (fr.scale (-1))
  else Except.ok fr

open Classical in
/-- `Panel.Update`: recompute area and normal from the first two edges — with
no outward flip (unlike `AddPanel`; `InitNormal` is never consulted). -/
def Panel.update (p : Panel) (e : EShell) : Panel :=
  if p.alive = false then p
  else
    let crx := ((e.getE (p.edges.getD 0 0)).along).cross (e.getE (p.edges.getD 1 0)).along
    { p with area := crx.length / 2, normal := crx.normalized }

/-- `Edge.Update`: recompute the along vector from current positions. -/
def Edge.update (ed : Edge) (e : EShell) : Edge :=
  if ed.alive = false then ed
  else
    { ed with
      along := ((e.getV (ed.vertices.getD 1 0)).position).sub
        (e.getV (ed.vertices.getD 0 0)).position }

/-- The cut-end collection loop of `EShell.CutFloor` on one panel: each edge
becomes a `[0, |along|]` segment from its first vertex and is intersected
with the floor plane; the hit points are collected in edge order. -/
def panelCutEnds (floor : Plane) (e : EShell) (p : Panel) : List Vec3 :=
  p.edges.foldl
    (fun ends eNo =>
      let ed := e.getE eNo
      let vNo := ed.vertices.getD 0 0
      let f := match ed.From vNo with
        | Except.ok g => g
        | Except.error _ => ed.along
      let l := Line.new (e.getV vNo).position f
      let s : Segment := ⟨l, 0, f.length⟩
      match floor.IntersectSegment s with
      | some intersect => ends ++ [intersect]
      | none => ends)
    ([] : List Vec3)

open Classical in
/-- One panel of `EShell.CutFloor`: collect the cut ends; with exactly 2,
classify corners by `Z > Base` and emit the capping triangle(s); otherwise
print an error when the count is not 0 and leave the panel untouched.
Returns the new state and the error messages printed. -/
def cutFloorStep (floor : Plane) (acc : EShell × List String) (pNo : ℕ) :
    EShell × List String :=
  let e := acc.1
  let p := e.getP pNo
  let cutEnds := panelCutEnds floor e p
  if cutEnds.length = 2 then
    let aboves := p.corners.foldl
      (fun ab vNo => if (e.getV vNo).position.z > e.Base then ab ++ [vNo] else ab) []
    if aboves.length = 1 then
      let r0 := e.addVertex (e.E.Surface (cutEnds.getD 0 default))
        [Constraint.onBase, Constraint.onEllipsoid]
      let r1 := r0.1.addVertex (r0.1.E.Surface (cutEnds.getD 1 default))
        [Constraint.onBase, Constraint.onEllipsoid]
      let vNew0 := r0.2
      let vNew1 := r1.2
      let q0 := r1.1.addEdge [vNew0, vNew1]
      let q1 := q0.1.addEdge [aboves.getD 0 0, vNew0]
      let q2 := q1.1.addEdge [aboves.getD 0 0, vNew1]
      let q3 := q2.1.addPanel [q0.2, q1.2, q2.2]
      (q3.1.removePanel pNo, acc.2)
    else if aboves.length = 2 then
      let r0 := e.addVertex (e.E.Surface (cutEnds.getD 0 default))
        [Constraint.onBase, Constraint.onEllipsoid]
      let r1 := r0.1.addVertex (r0.1.E.Surface (cutEnds.getD 1 default))
        [Constraint.onBase, Constraint.onEllipsoid]
      let vNew0 := r0.2
      let vNew1 := r1.2
      let q0 := r1.1.addEdge [vNew0, vNew1]
      let q1 := q0.1.addEdge [aboves.getD 0 0, vNew0]
      let q2 := q1.1.addEdge [aboves.getD 0 0, vNew1]
      let q3 := q2.1.addEdge [aboves.getD 1 0, vNew1]
      let q4 := q3.1.addEdge [aboves.getD 1 0, aboves.getD 0 0]
      let q5 := q4.1.addPanel [q0.2, q1.2, q2.2]
      let q6 := q5.1.addPanel [q2.2, q3.2, q4.2]
      (q6.1.removePanel pNo, acc.2)
    else (e.removePanel pNo, acc.2)
  else
    if cutEnds.length ≠ 0 then
      (e, acc.2 ++ [cutEndsMsg pNo cutEnds.length])
    else (e, acc.2)

/-- `EShell.CutFloor`: run `cutFloorStep` over the panels present when the
loop starts (`range e.Panels` snapshots the slice; capping panels appended
during the loop are not revisited). -/
def EShell.cutFloor (e : EShell) : EShell × List String :=
  let floor := Plane.new ⟨0, 0, e.Base⟩ ⟨0, 0, 1⟩
  (List.range e.panels.length).foldl (cutFloorStep floor) (e, [])

/-- The vertex checks of `EShell.CheckGeometry` (each failed check is a
`log.Fatal`). -/
def checkVertex (v : Vertex) : Except Failure Unit :=
  let ne := v.edges.length
  let np := v.panels.length
  let sNo := v.serial
  if ne < 2 then
    Except.error (Failure.fatalAbort (vertexEdgesMsg sNo ne))
  else if np > 6 ∨ ne < 1 then
    Except.error (Failure.fatalAbort (vertexPanelsMsg sNo np))
  else Except.ok ()

/-- The edge checks of `EShell.CheckGeometry`. -/
def checkEdge (ed : Edge) : Except Failure Unit :=
  let nv := ed.vertices.length
  let np := ed.panels.length
  let sNo := ed.serial
  if nv ≠ 2 then
    Except.error (Failure.fatalAbort (edgeVerticesMsg sNo nv))
  else if np > 2 ∨ np < 1 then
    Except.error (Failure.fatalAbort (edgePanelsMsg sNo np))
  else Except.ok ()

/-- The panel checks of `EShell.CheckGeometry`. -/
def checkPanel (p : Panel) : Except Failure Unit :=
  let nv := p.corners.length
  let ne := p.edges.length
  let sNo := p.serial
  if nv ≠ 3 then
    Except.error (Failure.fatalAbort (panelCornersMsg sNo nv))
  else if ne ≠ 3 then
    Except.error (Failure.fatalAbort (panelEdgesMsg sNo ne))
  else Except.ok ()

/-- `EShell.CheckGeometry`: all vertices, then all edges, then all panels,
stopping at the first fault (which aborts the process). -/
def EShell.checkGeometry (e : EShell) : Except Failure Unit := do
  e.vertices.forM checkVertex
  e.edges.forM checkEdge
  e.panels.forM checkPanel

/-! ### Concrete fixtures used by the witnesses and counterexamples -/

/-- The unit sphere, as configured through `Ellipsoid.Set`. -/
def e111 : Ellipsoid := Ellipsoid.set 1 1 1

/-- The plane of the `vec` package's own test: through `(0,0,5)`, normal `+Z`. -/
def plane45 : Plane := Plane.new ⟨0, 0, 5⟩ ⟨0, 0, 1⟩

/-- The line of the `vec` package's own test: through `(5,5,0)` along `(0,0,20)`. -/
def lineC : Line := Line.new ⟨5, 5, 0⟩ ⟨0, 0, 20⟩

/-- That line bounded to parameter range `[0,4]` — too short to reach the plane. -/
def seg04 : Segment := ⟨lineC, 0, 4⟩

/-- The same line bounded to `[0,6]` — reaches the plane at parameter 5. -/
def seg06 : Segment := ⟨lineC, 0, 6⟩

/-- An edge between vertices 0 and 1 (for probing `Edge.From` at a
non-incident vertex). -/
def edge90 : Edge :=
  { serial := 0, vertices := [0, 1], panels := [], along := ⟨1, 0, 0⟩
    length := 1, tension := 0, alive := true }

/-- An edge between vertices 2 and 7. -/
def edge91 : Edge :=
  { serial := 1, vertices := [2, 7], panels := [], along := ⟨0, 1, 0⟩
    length := 1, tension := 0, alive := true }

/-- An empty unit-sphere shell (base plane at the equator). -/
def shell7 : EShell :=
  { E := e111, Base := 0, vertices := [], edges := [], panels := [] }

/-- A unit-sphere shell holding one triangle panel that straddles the base
plane `Z = -4/5`: corner 0 is above the base, corners 1 and 2 below, and all
three corners lie exactly on the sphere. -/
def shell6 : EShell :=
  { E := e111, Base := -4/5
    vertices :=
      [ { serial := 0, position := ⟨4/5, 0, -3/5⟩, edges := [0, 2], panels := [0]
          alive := true, constraints := [] }
      , { serial := 1, position := ⟨0, 0, -1⟩, edges := [0, 1], panels := [0]
          alive := true, constraints := [] }
      , { serial := 2, position := ⟨3/13, 4/13, -12/13⟩, edges := [1, 2], panels := [0]
          alive := true, constraints := [] } ]
    edges :=
      [ { serial := 0, vertices := [0, 1], panels := [0], along := ⟨-4/5, 0, -2/5⟩
          length := (Vec3.mk (-4/5) 0 (-2/5)).length, tension := 0, alive := true }
      , { serial := 1, vertices := [1, 2], panels := [0], along := ⟨3/13, 4/13, 1/13⟩
          length := (Vec3.mk (3/13) (4/13) (1/13)).length, tension := 0, alive := true }
      , { serial := 2, vertices := [0, 2], panels := [0], along := ⟨-37/65, 4/13, -21/65⟩
          length := (Vec3.mk (-37/65) (4/13) (-21/65)).length, tension := 0, alive := true } ]
    panels :=
      [ { serial := 0, corners := [0, 1, 2], edges := [0, 1, 2], normal := default
          initNormal := default, area := 0, alive := true } ] }

/-- Shell with three vertices on the plane `Z = 1` and three edges, oriented
so that the raw cross product of the first two edges points toward the
origin; no panel yet. -/
def shell8 : EShell :=
  { E := e111, Base := 0
    vertices :=
      [ { serial := 0, position := ⟨0, 0, 1⟩, edges := [0, 2], panels := []
          alive := true, constraints := [] }
      , { serial := 1, position := ⟨1, 0, 1⟩, edges := [0, 1], panels := []
          alive := true, constraints := [] }
      , { serial := 2, position := ⟨0, 1, 1⟩, edges := [1, 2], panels := []
          alive := true, constraints := [] } ]
    edges :=
      [ { serial := 0, vertices := [0, 1], panels := [], along := ⟨1, 0, 0⟩
          length := 1, tension := 0, alive := true }
      , { serial := 1, vertices := [2, 1], panels := [], along := ⟨1, -1, 0⟩
          length := (Vec3.mk 1 (-1) 0).length, tension := 0, alive := true }
      , { serial := 2, vertices := [0, 2], panels := [], along := ⟨0, 1, 0⟩
          length := 1, tension := 0, alive := true } ]
    panels := [] }

/-- The shell after `AddPanel([0,1,2])` on `shell8`. -/
def shell8' : EShell := (shell8.addPanel [0, 1, 2]).1

/-- The panel created by that `AddPanel` call. -/
def panel8 : Panel := shell8'.getP 0

/-- The same panel after `Panel.Update` (the refresh `MoveVertices` runs). -/
def panel8u : Panel := panel8.update shell8'

/-- A degenerate unit-sphere shell whose single panel lists only one edge, so
the base plane `Z = -4/5` cuts it in exactly 1 point — the intersection-count
fault `CutFloor` reports by printing and skipping. -/
def shell9 : EShell :=
  { E := e111, Base := -4/5
    vertices :=
      [ { serial := 0, position := ⟨4/5, 0, -3/5⟩, edges := [0], panels := [0]
          alive := true, constraints := [] }
      , { serial := 1, position := ⟨0, 0, -1⟩, edges := [0], panels := [0]
          alive := true, constraints := [] } ]
    edges :=
      [ { serial := 0, vertices := [0, 1], panels := [0], along := ⟨-4/5, 0, -2/5⟩
          length := (Vec3.mk (-4/5) 0 (-2/5)).length, tension := 0, alive := true } ]
    panels :=
      [ { serial := 0, corners := [0, 1], edges := [0], normal := default
          initNormal := default, area := 0, alive := true } ] }

end

/-! ## Lemmas and claim theorems -/

namespace Facts

open Shelly

theorem Vec3.lengthSq_nonneg (v : Vec3) : 0 ≤ v.lengthSq := by
  have hx := mul_self_nonneg v.x
  have hy := mul_self_nonneg v.y
  have hz := mul_self_nonneg v.z
  unfold Shelly.Vec3.lengthSq; linarith

theorem Vec3.lengthSq_pos_of_ne (v : Vec3) (h : v ≠ ⟨0, 0, 0⟩) : 0 < v.lengthSq := by
  obtain ⟨a, b, c⟩ := v
  by_contra hc'
  push_neg at hc'
  simp only [Shelly.Vec3.lengthSq] at hc'
  have ha : a = 0 := by
    nlinarith [mul_self_nonneg a, mul_self_nonneg b, mul_self_nonneg c]
  have hb : b = 0 := by
    nlinarith [mul_self_nonneg a, mul_self_nonneg b, mul_self_nonneg c]
  have hcz : c = 0 := by
    nlinarith [mul_self_nonneg a, mul_self_nonneg b, mul_self_nonneg c]
  exact h (by rw [ha, hb, hcz])

theorem Vec3.length_pos_of_ne (v : Vec3) (h : v ≠ ⟨0, 0, 0⟩) : 0 < v.length :=
  Real.sqrt_pos.mpr (Vec3.lengthSq_pos_of_ne v h)

theorem Vec3.length_nonneg (v : Vec3) : 0 ≤ v.length := Real.sqrt_nonneg _

/-- If the squared length is the square of a nonnegative `l`, the length is `l`. -/
theorem Vec3.length_eq (v : Vec3) (l : ℝ) (hl : 0 ≤ l) (h : v.lengthSq = l ^ 2) :
    v.length = l := by
  unfold Shelly.Vec3.length; rw [h, Real.sqrt_sq hl]

/-- Normalizing the unit `+Z` vector is the identity. -/
theorem normalized_unitZ : (Vec3.mk 0 0 1).normalized = ⟨0, 0, 1⟩ := by
  have h : (Vec3.mk 0 0 1).length = 1 :=
    Vec3.length_eq _ 1 (by norm_num) (by simp [Shelly.Vec3.lengthSq])
  simp [Shelly.Vec3.normalized, h]

/-- Normalizing `(0,0,20)` yields the unit `+Z` vector. -/
theorem normalized_20Z : (Vec3.mk 0 0 20).normalized = ⟨0, 0, 1⟩ := by
  have h : (Vec3.mk 0 0 20).length = 20 :=
    Vec3.length_eq _ 20 (by norm_num) (by simp [Shelly.Vec3.lengthSq]; norm_num)
  simp [Shelly.Vec3.normalized, h]

/-- A `NewPlane` with unit `+Z` normal keeps its data unchanged. -/
theorem plane_new_unitZ (b : ℝ) :
    Plane.new ⟨0, 0, b⟩ ⟨0, 0, 1⟩ = ⟨⟨0, 0, b⟩, ⟨0, 0, 1⟩⟩ := by
  unfold Shelly.Plane.new
  rw [normalized_unitZ]

/-- Projecting `(2,0,0)` onto the unit sphere gives `(1,0,0)`. -/
theorem surface_two_x : e111.Surface ⟨2, 0, 0⟩ = ⟨1, 0, 0⟩ := by
  have h : (Vec3.mk 2 0 0).length = 2 :=
    Vec3.length_eq _ 2 (by norm_num) (by simp [Shelly.Vec3.lengthSq]; norm_num)
  simp only [Shelly.e111, Shelly.Ellipsoid.Surface, Shelly.Vec3.normalized, h,
    Shelly.Ellipsoid.set, Shelly.Vec3.scale]
  norm_num

/-- C10: `OnBase(e, p)` returns `p` unchanged for every shell and every
position: `SimVec.SetZ` writes through a value receiver, so the assignment of
`e.Base` lands on a discarded copy (whose `z` field does receive `e.Base`),
and the constraint is the identity on positions. -/
theorem onBase_is_identity :
    ∀ (e : EShell) (p : Vec3), OnBase e p = p ∧ (p.setZ e.Base).z = e.Base :=
  fun _ _ => ⟨rfl, rfl⟩

/-- C7: refuted on the code.  `EShell.AddVertex` never stores or applies the
supplied constraints: on the unit sphere, a vertex created at `(2,0,0)` with
the `OnEllipsoid` constraint keeps position `(2,0,0)` and an empty constraint
list, while the constraint chain would have produced `(1,0,0)` on the
surface. -/
theorem addVertex_drops_constraints :
    ((shell7.addVertex ⟨2, 0, 0⟩ [Constraint.onEllipsoid]).1.getV
      (shell7.addVertex ⟨2, 0, 0⟩ [Constraint.onEllipsoid]).2).position = ⟨2, 0, 0⟩ ∧
    ((shell7.addVertex ⟨2, 0, 0⟩ [Constraint.onEllipsoid]).1.getV
      (shell7.addVertex ⟨2, 0, 0⟩ [Constraint.onEllipsoid]).2).constraints = [] ∧
    applyChain (shell7.addVertex ⟨2, 0, 0⟩ [Constraint.onEllipsoid]).1
      [Constraint.onEllipsoid] ⟨2, 0, 0⟩ = ⟨1, 0, 0⟩ ∧
    (Vec3.mk 2 0 0) ≠ ⟨1, 0, 0⟩ := by
  refine ⟨?_, ?_, ?_, ?_⟩
  · simp [Shelly.shell7, Shelly.EShell.addVertex, Shelly.EShell.getV]
  · simp [Shelly.shell7, Shelly.EShell.addVertex, Shelly.EShell.getV]
  · simp only [Shelly.applyChain, Shelly.applyConstraint, List.foldl_cons, List.foldl_nil,
      Shelly.shell7, Shelly.EShell.addVertex]
    exact surface_two_x
  · intro h
    have := congrArg Shelly.Vec3.x h
    norm_num at this

/-- C5: `Plane.IntersectLine` reports no hit exactly when
`|dot(lineDir, planeNormal)| < mayAsWellBeZero` (with the epsilon equal to
`1e-12`), and otherwise returns the point `PointOn + AlongN·d` for the solved
parameter `d = dot(planePoint - linePoint, normal) / dot(lineDir, normal)`. -/
theorem intersectLine_parallel_epsilon :
    mayAsWellBeZero = (1e-12 : ℝ) ∧
    ∀ (p : Plane) (l : Line),
      (p.IntersectLine l = none ↔ |l.AlongN.dot p.Normal| < mayAsWellBeZero) ∧
      (mayAsWellBeZero ≤ |l.AlongN.dot p.Normal| →
        p.IntersectLine l = some (l.PointOn.add (l.AlongN.scale
          (((p.PointOn.sub l.PointOn).dot p.Normal) / (l.AlongN.dot p.Normal))))) := by
  refine ⟨rfl, fun p l => ⟨?_, ?_⟩⟩
  · unfold Shelly.Plane.IntersectLine
    by_cases h : |l.AlongN.dot p.Normal| < mayAsWellBeZero
    · simp [h]
    · simp [h]
  · intro h
    unfold Shelly.Plane.IntersectLine
    rw [if_neg (not_lt.mpr h)]

/-- Direct evaluation of the plane/line test data: the hit is at `(5,5,5)`. -/
theorem intersectLine_concrete : plane45.IntersectLine lineC = some ⟨5, 5, 5⟩ := by
  have hN : plane45.Normal = ⟨0, 0, 1⟩ := by
    simp [Shelly.plane45, Shelly.Plane.new, normalized_unitZ]
  have hA : lineC.AlongN = ⟨0, 0, 1⟩ := by
    simp [Shelly.lineC, Shelly.Line.new, normalized_20Z]
  have hP : plane45.PointOn = ⟨0, 0, 5⟩ := by simp [Shelly.plane45, Shelly.Plane.new]
  have hO : lineC.PointOn = ⟨5, 5, 0⟩ := by simp [Shelly.lineC, Shelly.Line.new]
  unfold Shelly.Plane.IntersectLine
  rw [hN, hA, hP, hO]
  simp only [Shelly.Vec3.dot, Shelly.Vec3.sub, Shelly.Vec3.scale, Shelly.Vec3.add,
    Shelly.mayAsWellBeZero]
  norm_num

/-- C4: `Plane.IntersectSegment` keeps a line hit only when the solved
parameter lies strictly inside `(MinD, MaxD)` — touching an endpoint exactly
reports no hit — and, concretely, the test segment bounded to `[0,4]` whose
crossing parameter is 5 misses while the same segment widened to `[0,6]` hits
at `(5,5,5)`. -/
theorem intersectSegment_open_interval :
    (∀ (p : Plane) (s : Segment) (w : Vec3),
      p.IntersectLine s.line = some w →
        (((w.sub s.line.PointOn).dot s.line.AlongN ≤ s.MinD ∨
          (w.sub s.line.PointOn).dot s.line.AlongN ≥ s.MaxD) →
            p.IntersectSegment s = none) ∧
        (s.MinD < (w.sub s.line.PointOn).dot s.line.AlongN →
          (w.sub s.line.PointOn).dot s.line.AlongN < s.MaxD →
            p.IntersectSegment s = some w)) ∧
    plane45.IntersectSegment seg04 = none ∧
    plane45.IntersectSegment seg06 = some ⟨5, 5, 5⟩ := by
  have hgen : ∀ (p : Plane) (s : Segment) (w : Vec3),
      p.IntersectLine s.line = some w →
        (((w.sub s.line.PointOn).dot s.line.AlongN ≤ s.MinD ∨
          (w.sub s.line.PointOn).dot s.line.AlongN ≥ s.MaxD) →
            p.IntersectSegment s = none) ∧
        (s.MinD < (w.sub s.line.PointOn).dot s.line.AlongN →
          (w.sub s.line.PointOn).dot s.line.AlongN < s.MaxD →
            p.IntersectSegment s = some w) := by
    intro p s w h
    unfold Shelly.Plane.IntersectSegment
    rw [h]
    constructor
    · intro hcond
      simp only []
      rw [if_pos hcond]
    · intro h1 h2
      simp only []
      rw [if_neg]
      push_neg
      exact ⟨not_le.mp (by exact fun hc => absurd h1 (not_lt.mpr hc)), not_le.mp
        (by exact fun hc => absurd h2 (not_lt.mpr hc))⟩
  have hA : lineC.AlongN = ⟨0, 0, 1⟩ := by
    simp [Shelly.lineC, Shelly.Line.new, normalized_20Z]
  have hO : lineC.PointOn = ⟨5, 5, 0⟩ := by simp [Shelly.lineC, Shelly.Line.new]
  have hHow : ((Vec3.mk 5 5 5).sub lineC.PointOn).dot lineC.AlongN = 5 := by
    rw [hO, hA]; simp [Shelly.Vec3.sub, Shelly.Vec3.dot]
  refine ⟨hgen, ?_, ?_⟩
  · have h4 := (hgen plane45 seg04 ⟨5, 5, 5⟩ intersectLine_concrete).1
    apply h4
    right
    show ((Vec3.mk 5 5 5).sub lineC.PointOn).dot lineC.AlongN ≥ (4 : ℝ)
    rw [hHow]; norm_num
  · have h6 := (hgen plane45 seg06 ⟨5, 5, 5⟩ intersectLine_concrete).2
    apply h6
    · show (0 : ℝ) < ((Vec3.mk 5 5 5).sub lineC.PointOn).dot lineC.AlongN
      rw [hHow]; norm_num
    · show ((Vec3.mk 5 5 5).sub lineC.PointOn).dot lineC.AlongN < (6 : ℝ)
      rw [hHow]; norm_num

/-- Witness for C4: the general open-interval statement applied at the
concrete test data, discharging its hypotheses there. -/
theorem intersectSegment_open_interval_witness :
    plane45.IntersectSegment ⟨lineC, 0, 7⟩ = some ⟨5, 5, 5⟩ := by
  have hA : lineC.AlongN = ⟨0, 0, 1⟩ := by
    simp [Shelly.lineC, Shelly.Line.new, normalized_20Z]
  have hO : lineC.PointOn = ⟨5, 5, 0⟩ := by simp [Shelly.lineC, Shelly.Line.new]
  have hHow : ((Vec3.mk 5 5 5).sub lineC.PointOn).dot lineC.AlongN = 5 := by
    rw [hO, hA]; simp [Shelly.Vec3.sub, Shelly.Vec3.dot]
  apply (intersectSegment_open_interval.1 plane45 ⟨lineC, 0, 7⟩ ⟨5, 5, 5⟩
    intersectLine_concrete).2
  · show (0 : ℝ) < ((Vec3.mk 5 5 5).sub lineC.PointOn).dot lineC.AlongN
    rw [hHow]; norm_num
  · show ((Vec3.mk 5 5 5).sub lineC.PointOn).dot lineC.AlongN < (7 : ℝ)
    rw [hHow]; norm_num

/-- C2: for every nonzero direction and positive semi-axes, the point
returned by `Surface` satisfies the ellipsoid equation exactly over ℝ. -/
theorem surface_on_ellipsoid (l w h : ℝ) (hl : 0 < l) (hw : 0 < w) (hh : 0 < h)
    (d : Vec3) (hd : d ≠ ⟨0, 0, 0⟩) :
    (((Ellipsoid.set l w h).Surface d).x / l) ^ 2 +
    (((Ellipsoid.set l w h).Surface d).y / w) ^ 2 +
    (((Ellipsoid.set l w h).Surface d).z / h) ^ 2 = 1 := by
  have hn : 0 < d.length := Vec3.length_pos_of_ne d hd
  obtain ⟨a, b, c⟩ := d
  have hcomp : a ≠ 0 ∨ b ≠ 0 ∨ c ≠ 0 := by
    by_contra hc
    push_neg at hc
    exact hd (by rw [hc.1, hc.2.1, hc.2.2])
  simp only [Shelly.Ellipsoid.Surface, Shelly.Ellipsoid.set, Shelly.Vec3.normalized,
    Shelly.Vec3.scale]
  set n := (Vec3.mk a b c).length with hnn
  set S := a / n * (a / n) * (1 / (l * l)) + b / n * (b / n) * (1 / (w * w)) +
    c / n * (c / n) * (1 / (h * h)) with hS
  have hSpos : 0 < S := by
    have e1 : 0 ≤ a / n * (a / n) * (1 / (l * l)) :=
      mul_nonneg (mul_self_nonneg _) (by positivity)
    have e2 : 0 ≤ b / n * (b / n) * (1 / (w * w)) :=
      mul_nonneg (mul_self_nonneg _) (by positivity)
    have e3 : 0 ≤ c / n * (c / n) * (1 / (h * h)) :=
      mul_nonneg (mul_self_nonneg _) (by positivity)
    rcases hcomp with ha | hb | hc
    · have hq : a / n ≠ 0 := div_ne_zero ha (ne_of_gt hn)
      have h1 : 0 < a / n * (a / n) := mul_self_pos.mpr hq
      have h2 : (0 : ℝ) < 1 / (l * l) := by positivity
      rw [hS]; nlinarith
    · have hq : b / n ≠ 0 := div_ne_zero hb (ne_of_gt hn)
      have h1 : 0 < b / n * (b / n) := mul_self_pos.mpr hq
      have h2 : (0 : ℝ) < 1 / (w * w) := by positivity
      rw [hS]; nlinarith
    · have hq : c / n ≠ 0 := div_ne_zero hc (ne_of_gt hn)
      have h1 : 0 < c / n * (c / n) := mul_self_pos.mpr hq
      have h2 : (0 : ℝ) < 1 / (h * h) := by positivity
      rw [hS]; nlinarith
  have hk2 : Real.sqrt (1 / S) * Real.sqrt (1 / S) = 1 / S :=
    Real.mul_self_sqrt (by positivity)
  have expand : (a / n * Real.sqrt (1 / S) / l) ^ 2 + (b / n * Real.sqrt (1 / S) / w) ^ 2 +
      (c / n * Real.sqrt (1 / S) / h) ^ 2 = (Real.sqrt (1 / S) * Real.sqrt (1 / S)) * S := by
    rw [hS]; ring
  rw [expand, hk2, one_div_mul_cancel (ne_of_gt hSpos)]

/-- Witness for C2 on the unit sphere with direction `(0,0,2)`. -/
theorem surface_on_ellipsoid_witness :
    (((Ellipsoid.set 1 1 1).Surface ⟨0, 0, 2⟩).x / 1) ^ 2 +
    (((Ellipsoid.set 1 1 1).Surface ⟨0, 0, 2⟩).y / 1) ^ 2 +
    (((Ellipsoid.set 1 1 1).Surface ⟨0, 0, 2⟩).z / 1) ^ 2 = 1 := by
  have hne : (Vec3.mk 0 0 2) ≠ ⟨0, 0, 0⟩ := by
    intro hq
    have := congrArg Shelly.Vec3.z hq
    norm_num at this
  exact surface_on_ellipsoid 1 1 1 (by norm_num) (by norm_num) (by norm_num) _ hne

/-- Witness for C5 at the `vec` test data: the line through `(5,5,0)` along
`(0,0,20)` is not parallel to the plane through `(0,0,5)` with normal `+Z`,
and the theorem instantiated there yields the hit point `(5,5,5)`. -/
theorem intersectLine_parallel_epsilon_witness :
    plane45.IntersectLine lineC = some ⟨5, 5, 5⟩ := by
  have hN : plane45.Normal = ⟨0, 0, 1⟩ := by
    simp [Shelly.plane45, Shelly.Plane.new, normalized_unitZ]
  have hA : lineC.AlongN = ⟨0, 0, 1⟩ := by
    simp [Shelly.lineC, Shelly.Line.new, normalized_20Z]
  have hd : lineC.AlongN.dot plane45.Normal = 1 := by
    rw [hN, hA]; simp [Shelly.Vec3.dot]
  have h := (intersectLine_parallel_epsilon.2 plane45 lineC).2
    (by rw [hd]; rw [intersectLine_parallel_epsilon.1]; norm_num)
  have hP : plane45.PointOn = ⟨0, 0, 5⟩ := by simp [Shelly.plane45, Shelly.Plane.new]
  have hO : lineC.PointOn = ⟨5, 5, 0⟩ := by simp [Shelly.lineC, Shelly.Line.new]
  rw [h, hP, hO, hA, hN]
  simp [Shelly.Vec3.sub, Shelly.Vec3.dot, Shelly.Vec3.scale, Shelly.Vec3.add]

/-- The refinement loop never uses more iterations than its fuel. -/
theorem pdLoop_tries_le (e : Ellipsoid) (p : Vec3) (L tol : ℝ) :
    ∀ (fuel : ℕ) (est : Vec3), (pdLoop e p L tol fuel est).2 ≤ fuel := by
  intro fuel
  induction fuel with
  | zero => intro est; simp [Shelly.pdLoop]
  | succ n ih =>
    intro est
    unfold Shelly.pdLoop
    split
    · exact Nat.succ_le_succ (ih _)
    · exact Nat.zero_le _

/-- If the loop stops before exhausting its fuel, the guard failed: the final
chord length is within tolerance of the target. -/
theorem pdLoop_early (e : Ellipsoid) (p : Vec3) (L tol : ℝ) :
    ∀ (fuel : ℕ) (est : Vec3), (pdLoop e p L tol fuel est).2 < fuel →
      |((pdLoop e p L tol fuel est).1.sub p).length - L| ≤ tol := by
  intro fuel
  induction fuel with
  | zero => intro est hlt; exact absurd hlt (by simp [Shelly.pdLoop])
  | succ n ih =>
    intro est hlt
    unfold Shelly.pdLoop at hlt ⊢
    by_cases hg : |(est.sub p).length - L| > tol
    · rw [if_pos hg] at hlt ⊢
      exact ih _ (Nat.lt_of_succ_lt_succ hlt)
    · rw [if_neg hg] at hlt ⊢
      exact not_lt.mp hg

/-- Whatever the loop returns is a point produced by `Surface`, provided it
starts from one. -/
theorem pdLoop_surface (e : Ellipsoid) (p : Vec3) (L tol : ℝ) :
    ∀ (fuel : ℕ) (est : Vec3), (∃ s, est = e.Surface s) →
      ∃ s, (pdLoop e p L tol fuel est).1 = e.Surface s := by
  intro fuel
  induction fuel with
  | zero => intro est hs; simpa [Shelly.pdLoop] using hs
  | succ n ih =>
    intro est hs
    unfold Shelly.pdLoop
    by_cases hg : |(est.sub p).length - L| > tol
    · rw [if_pos hg]
      exact ih _ ⟨_, rfl⟩
    · rw [if_neg hg]
      exact hs

/-- C3: `PointDistant` performs at most 10 refinement iterations; whenever it
stops before the cap, the achieved chord length is within tolerance of the
target; and the returned value is always the current estimate, a point
produced by `Surface` — the return type carries no success flag. -/
theorem pointDistant_cap_surface :
    ∀ (e : Ellipsoid) (p g : Vec3) (L tol : ℝ),
      e.pdTries p g L tol ≤ 10 ∧
      (e.pdTries p g L tol < 10 →
        |((e.PointDistant p g L tol).sub p).length - L| ≤ tol) ∧
      ∃ s, e.PointDistant p g L tol = e.Surface s := by
  intro e p g L tol
  refine ⟨pdLoop_tries_le e p L tol 10 _, fun hlt => pdLoop_early e p L tol 10 _ hlt, ?_⟩
  exact pdLoop_surface e p L tol 10 _ ⟨_, rfl⟩

/-- The initial estimate for the witness configuration: on the unit sphere,
from `(1,0,0)` toward `(0,1,0)` at chord `√2`, the circular-chord seed lands
exactly on `(0,1,0)`. -/
theorem pdInit_witness_value :
    e111.pdInit ⟨1, 0, 0⟩ ⟨0, 1, 0⟩ (Real.sqrt 2) = ⟨0, 1, 0⟩ := by
  have hpx : (Vec3.mk 1 0 0).length = 1 :=
    Vec3.length_eq _ 1 (by norm_num) (by simp [Shelly.Vec3.lengthSq])
  have hpy : (Vec3.mk 0 1 0).length = 1 :=
    Vec3.length_eq _ 1 (by norm_num) (by simp [Shelly.Vec3.lengthSq])
  have h2 : Real.sqrt 2 * Real.sqrt 2 = 2 := Real.mul_self_sqrt (by norm_num)
  unfold Shelly.Ellipsoid.pdInit
  simp only [hpx, hpy, Shelly.Vec3.normalized, Shelly.Vec3.cross, Shelly.Vec3.scale,
    Shelly.Vec3.sub, Shelly.Vec3.add, h2]
  norm_num
  have hM : Real.sqrt (2 * (1 - 2 / (4 * (1 * 1)))) = 1 := by
    norm_num
  have hs : (Vec3.mk 0 1 0).length = 1 := hpy
  unfold Shelly.Ellipsoid.Surface Shelly.e111
  simp only [Shelly.Vec3.normalized, Shelly.Ellipsoid.set, Shelly.Vec3.scale]
  norm_num
  rw [hpy]
  norm_num

/-- Witness for C3: at the configuration above the guard fails immediately
(`delta = 0 ≤ 1`), so zero iterations are used and the cap theorem's
early-exit implication applies. -/
theorem pointDistant_cap_surface_witness :
    e111.pdTries ⟨1, 0, 0⟩ ⟨0, 1, 0⟩ (Real.sqrt 2) 1 ≤ 10 ∧
    |((e111.PointDistant ⟨1, 0, 0⟩ ⟨0, 1, 0⟩ (Real.sqrt 2) 1).sub ⟨1, 0, 0⟩).length -
      Real.sqrt 2| ≤ 1 := by
  have htries : e111.pdTries ⟨1, 0, 0⟩ ⟨0, 1, 0⟩ (Real.sqrt 2) 1 = 0 := by
    unfold Shelly.Ellipsoid.pdTries
    rw [pdInit_witness_value]
    have hguard : ¬ |((Vec3.mk 0 1 0).sub ⟨1, 0, 0⟩).length - Real.sqrt 2| > 1 := by
      have hlen : ((Vec3.mk 0 1 0).sub ⟨1, 0, 0⟩).length = Real.sqrt 2 := by
        simp [Shelly.Vec3.sub, Shelly.Vec3.length, Shelly.Vec3.lengthSq]
        norm_num
      rw [hlen]
      simp
    rw [show (10 : ℕ) = 9 + 1 from rfl]
    unfold Shelly.pdLoop
    rw [if_neg hguard]
  refine ⟨(pointDistant_cap_surface e111 ⟨1, 0, 0⟩ ⟨0, 1, 0⟩ (Real.sqrt 2) 1).1, ?_⟩
  apply (pointDistant_cap_surface e111 ⟨1, 0, 0⟩ ⟨0, 1, 0⟩ (Real.sqrt 2) 1).2.1
  rw [htries]
  norm_num

/-- C9 counterexample: a vertex referenced at an edge it is not incident to
makes `Edge.From` terminate the process (`log.Fatal`, modelled by
`Failure.fatalAbort`); no value — and no recoverable error result — is ever
returned to the caller, refuting the claim at this concrete input. -/
theorem edgeFrom_fatal_counterexample :
    (∃ m, edge90.From 5 = Except.error (Failure.fatalAbort m)) ∧
    ∀ v : Vec3, edge90.From 5 ≠ Except.ok v := by
  have hform : edge90.From 5 = Except.error (Failure.fatalAbort
      "Geometry error: vertex 5 is not on edge 0 at all") := by
    simp only [Shelly.edge90, Shelly.Edge.From]
    norm_num
    rfl
  constructor
  · exact ⟨_, hform⟩
  · intro v hv
    rw [hform] at hv
    exact Except.noConfusion hv


/-- Normalizing the negative unit `Z` vector is the identity. -/
theorem normalized_negZ : (Vec3.mk 0 0 (-1)).normalized = ⟨0, 0, -1⟩ := by
  have h : (Vec3.mk 0 0 (-1)).length = 1 :=
    Vec3.length_eq _ 1 (by norm_num) (by norm_num [Shelly.Vec3.lengthSq])
  simp [Shelly.Vec3.normalized, h]

/-- C8: refuted on the refresh path.  `AddPanel` does flip the stored normal
outward (all three corner dot products are `+1` here), but `Panel.Update` —
the refresh `MoveVertices` performs — recomputes the normal as the raw cross
product with no outward check, leaving this panel's normal pointing toward
the origin (corner dot product `-1 < 0`). -/
theorem panel_update_normal_inward :
    panel8.normal = ⟨0, 0, 1⟩ ∧
    panel8.corners = [0, 1, 2] ∧
    panel8.normal.dot (shell8'.getV 0).position = 1 ∧
    panel8.normal.dot (shell8'.getV 1).position = 1 ∧
    panel8.normal.dot (shell8'.getV 2).position = 1 ∧
    panel8u.normal = ⟨0, 0, -1⟩ ∧
    panel8u.normal.dot (shell8'.getV 0).position = -1 ∧
    ¬(0 ≤ panel8u.normal.dot (shell8'.getV 0).position) := by
  have hcrx : (Vec3.mk 1 0 0).cross ⟨1, -1, 0⟩ = ⟨0, 0, -1⟩ := by
    simp [Shelly.Vec3.cross]
  have hshell : shell8' =
      { E := e111, Base := 0
        vertices :=
          [ { serial := 0, position := ⟨0, 0, 1⟩, edges := [0, 2], panels := [0]
              alive := true, constraints := [] }
          , { serial := 1, position := ⟨1, 0, 1⟩, edges := [0, 1], panels := [0]
              alive := true, constraints := [] }
          , { serial := 2, position := ⟨0, 1, 1⟩, edges := [1, 2], panels := [0]
              alive := true, constraints := [] } ]
        edges :=
          [ { serial := 0, vertices := [0, 1], panels := [0], along := ⟨1, 0, 0⟩
              length := 1, tension := 0, alive := true }
          , { serial := 1, vertices := [2, 1], panels := [0], along := ⟨1, -1, 0⟩
              length := (Vec3.mk 1 (-1) 0).length, tension := 0, alive := true }
          , { serial := 2, vertices := [0, 2], panels := [0], along := ⟨0, 1, 0⟩
              length := 1, tension := 0, alive := true } ]
        panels :=
          [ { serial := 0, corners := [0, 1, 2], edges := [0, 1, 2]
              normal := ⟨0, 0, 1⟩, initNormal := ⟨0, 0, 1⟩
              area := (Vec3.mk 0 0 (-1)).length / 2, alive := true } ] } := by
    unfold Shelly.shell8' Shelly.shell8 Shelly.EShell.addPanel
    simp only [Shelly.EShell.getE, Shelly.EShell.getV, Shelly.EShell.updE, Shelly.EShell.updV,
      Shelly.listModify, Shelly.appendUnique, List.getD, List.foldl_cons, List.foldl_nil,
      List.getElem?_cons_zero, List.getElem?_cons_succ, Option.getD_some, Option.getD_none,
      List.get?_eq_getElem?, hcrx, normalized_negZ]
    norm_num [Shelly.Vec3.dot, Shelly.Vec3.scale]
  have hP : panel8 =
      { serial := 0, corners := [0, 1, 2], edges := [0, 1, 2]
        normal := ⟨0, 0, 1⟩, initNormal := ⟨0, 0, 1⟩
        area := (Vec3.mk 0 0 (-1)).length / 2, alive := true } := by
    unfold Shelly.panel8
    rw [hshell]
    simp [Shelly.EShell.getP, List.getD]
  have hPu : panel8u.normal = ⟨0, 0, -1⟩ := by
    unfold Shelly.panel8u Shelly.Panel.update
    rw [hP, hshell]
    simp only [Shelly.EShell.getE, List.getD, List.get?_eq_getElem?,
      List.getElem?_cons_zero, List.getElem?_cons_succ, Option.getD_some]
    rw [if_neg (by simp)]
    simp [hcrx, normalized_negZ]
  have hV0 : (shell8'.getV 0).position = ⟨0, 0, 1⟩ := by
    rw [hshell]; simp [Shelly.EShell.getV, List.getD]
  have hV1 : (shell8'.getV 1).position = ⟨1, 0, 1⟩ := by
    rw [hshell]; simp [Shelly.EShell.getV, List.getD]
  have hV2 : (shell8'.getV 2).position = ⟨0, 1, 1⟩ := by
    rw [hshell]; simp [Shelly.EShell.getV, List.getD]
  refine ⟨by rw [hP], by rw [hP], ?_, ?_, ?_, hPu, ?_, ?_⟩
  · rw [hP, hV0]; simp [Shelly.Vec3.dot]
  · rw [hP, hV1]; simp [Shelly.Vec3.dot]
  · rw [hP, hV2]; simp [Shelly.Vec3.dot]
  · rw [hPu, hV0]; simp [Shelly.Vec3.dot]
  · rw [hPu, hV0]; simp [Shelly.Vec3.dot]

/-- Intersecting a horizontal plane `Z = b` with the segment `CutFloor`
builds for an edge (start `p`, along `f`, parameter range `[0, |f|]`):
the hit exists exactly when the edge parameter `t = (b - p.z)/f.z` lies
strictly inside `(0, 1)`, and then equals `p + t·f`. -/
theorem floor_intersect_segment (b : ℝ) (p f : Vec3) (hf : 0 < f.lengthSq)
    (hez : mayAsWellBeZero ≤ |f.z| / f.length) :
    (Plane.new ⟨0, 0, b⟩ ⟨0, 0, 1⟩).IntersectSegment ⟨Line.new p f, 0, f.length⟩ =
      if 0 < (b - p.z) / f.z ∧ (b - p.z) / f.z < 1
      then some (p.add (f.scale ((b - p.z) / f.z))) else none := by
  have hl : 0 < f.length := Real.sqrt_pos.mpr hf
  have hlne : f.length ≠ 0 := ne_of_gt hl
  have hlsq : f.length * f.length = f.lengthSq := Real.mul_self_sqrt (le_of_lt hf)
  have hfz : f.z ≠ 0 := by
    intro h0
    rw [h0, abs_zero, zero_div] at hez
    norm_num [Shelly.mayAsWellBeZero] at hez
  rw [plane_new_unitZ]
  have hdot : (f.normalized).dot ⟨0, 0, 1⟩ = f.z / f.length := by
    simp [Shelly.Vec3.normalized, Shelly.Vec3.dot]
  have hcond : ¬(|(f.normalized).dot ⟨0, 0, 1⟩| < mayAsWellBeZero) := by
    rw [hdot, abs_div, abs_of_pos hl]
    exact not_lt.mpr hez
  have hline : Plane.IntersectLine ⟨⟨0, 0, b⟩, ⟨0, 0, 1⟩⟩ (Line.new p f) =
      some (p.add (f.scale ((b - p.z) / f.z))) := by
    unfold Shelly.Plane.IntersectLine Shelly.Line.new
    simp only []
    rw [if_neg hcond]
    congr 1
    rw [hdot]
    simp only [Shelly.Vec3.normalized, Shelly.Vec3.sub, Shelly.Vec3.dot, Shelly.Vec3.scale,
      Shelly.Vec3.add]
    ext <;> field_simp <;> ring
  unfold Shelly.Plane.IntersectSegment
  rw [hline]
  simp only []
  have hsub : ((p.add (f.scale ((b - p.z) / f.z))).sub p) = f.scale ((b - p.z) / f.z) := by
    ext <;> simp [Shelly.Vec3.add, Shelly.Vec3.sub, Shelly.Vec3.scale] <;> ring
  have hHow : (((p.add (f.scale ((b - p.z) / f.z))).sub
      (⟨Line.new p f, 0, f.length⟩ : Segment).line.PointOn).dot
      (⟨Line.new p f, 0, f.length⟩ : Segment).line.AlongN) =
      ((b - p.z) / f.z) * f.length := by
    show (((p.add (f.scale ((b - p.z) / f.z))).sub p).dot f.normalized) = _
    rw [hsub]
    have expand : (f.scale ((b - p.z) / f.z)).dot f.normalized =
        ((b - p.z) / f.z) * (f.lengthSq / f.length) := by
      simp only [Shelly.Vec3.scale, Shelly.Vec3.normalized, Shelly.Vec3.dot,
        Shelly.Vec3.lengthSq]
      ring
    rw [expand, ← hlsq]
    field_simp
  rw [hHow]
  by_cases hc : 0 < (b - p.z) / f.z ∧ (b - p.z) / f.z < 1
  · rw [if_pos hc, if_neg]
    push_neg
    constructor
    · show (0 : ℝ) < (b - p.z) / f.z * f.length
      exact mul_pos hc.1 hl
    · show (b - p.z) / f.z * f.length < f.length
      nlinarith [hc.1, hc.2, hl]
  · rw [if_neg hc, if_pos]
    rcases not_and_or.mp hc with h1 | h2
    · left
      push_neg at h1
      show (b - p.z) / f.z * f.length ≤ (0 : ℝ)
      nlinarith [hl]
    · right
      push_neg at h2
      show (b - p.z) / f.z * f.length ≥ f.length
      nlinarith [hl]

/-- The epsilon guard passes for any direction whose `z` component is at
least `1/13` in absolute value and whose length is at most 1. -/
theorem eps_ratio (fz len : ℝ) (hl : 0 < len) (hle : len ≤ 1)
    (hfz : 1 / 13 ≤ |fz|) : mayAsWellBeZero ≤ |fz| / len := by
  rw [Shelly.mayAsWellBeZero, le_div_iff hl]
  nlinarith [abs_nonneg fz]

/-- Cut of edge 0 of `shell6` (from corner 0 down to corner 1): interior hit
at `(2/5, 0, -4/5)`. -/
theorem shell6_cut_edge0 :
    (Plane.new ⟨0, 0, (-(4/5) : ℝ)⟩ ⟨0, 0, 1⟩).IntersectSegment
      ⟨Line.new ⟨4/5, 0, -(3/5)⟩ ⟨-(4/5), 0, -(2/5)⟩, 0,
        (Vec3.mk (-(4/5)) 0 (-(2/5))).length⟩ =
      some ⟨2/5, 0, -(4/5)⟩ := by
  have hsq : (Vec3.mk (-(4/5)) 0 (-(2/5))).lengthSq = 4/5 := by
    norm_num [Shelly.Vec3.lengthSq]
  have hl : 0 < (Vec3.mk (-(4/5)) 0 (-(2/5))).length :=
    Real.sqrt_pos.mpr (by rw [hsq]; norm_num)
  have hle : (Vec3.mk (-(4/5)) 0 (-(2/5))).length ≤ 1 := by
    rw [Shelly.Vec3.length, hsq]
    exact Real.sqrt_le_one.mpr (by norm_num)
  rw [floor_intersect_segment _ _ _ (by rw [hsq]; norm_num)
    (eps_ratio _ _ hl hle (by rw [le_abs]; norm_num))]
  rw [if_pos (by norm_num)]
  congr 1
  ext <;> norm_num [Shelly.Vec3.add, Shelly.Vec3.scale]

/-- Cut of edge 1 of `shell6` (corner 1 to corner 2, entirely below the
base): the line crosses at parameter `13/5 > 1`, outside the segment. -/
theorem shell6_cut_edge1 :
    (Plane.new ⟨0, 0, (-(4/5) : ℝ)⟩ ⟨0, 0, 1⟩).IntersectSegment
      ⟨Line.new ⟨0, 0, -1⟩ ⟨3/13, 4/13, 1/13⟩, 0,
        (Vec3.mk (3/13) (4/13) (1/13)).length⟩ = none := by
  have hsq : (Vec3.mk (3/13) (4/13) (1/13)).lengthSq = 2/13 := by
    norm_num [Shelly.Vec3.lengthSq]
  have hl : 0 < (Vec3.mk (3/13) (4/13) (1/13)).length :=
    Real.sqrt_pos.mpr (by rw [hsq]; norm_num)
  have hle : (Vec3.mk (3/13) (4/13) (1/13)).length ≤ 1 := by
    rw [Shelly.Vec3.length, hsq]
    exact Real.sqrt_le_one.mpr (by norm_num)
  rw [floor_intersect_segment _ _ _ (by rw [hsq]; norm_num)
    (eps_ratio _ _ hl hle (by rw [le_abs]; norm_num))]
  rw [if_neg (by norm_num)]

/-- Cut of edge 2 of `shell6` (corner 0 down to corner 2): interior hit at
`(47/105, 4/21, -4/5)`. -/
theorem shell6_cut_edge2 :
    (Plane.new ⟨0, 0, (-(4/5) : ℝ)⟩ ⟨0, 0, 1⟩).IntersectSegment
      ⟨Line.new ⟨4/5, 0, -(3/5)⟩ ⟨-(37/65), 4/13, -(21/65)⟩, 0,
        (Vec3.mk (-(37/65)) (4/13) (-(21/65))).length⟩ =
      some ⟨47/105, 4/21, -(4/5)⟩ := by
  have hsq : (Vec3.mk (-(37/65)) (4/13) (-(21/65))).lengthSq = 34/65 := by
    norm_num [Shelly.Vec3.lengthSq]
  have hl : 0 < (Vec3.mk (-(37/65)) (4/13) (-(21/65))).length :=
    Real.sqrt_pos.mpr (by rw [hsq]; norm_num)
  have hle : (Vec3.mk (-(37/65)) (4/13) (-(21/65))).length ≤ 1 := by
    rw [Shelly.Vec3.length, hsq]
    exact Real.sqrt_le_one.mpr (by norm_num)
  rw [floor_intersect_segment _ _ _ (by rw [hsq]; norm_num)
    (eps_ratio _ _ hl hle (by rw [le_abs]; norm_num))]
  rw [if_pos (by norm_num)]
  congr 1
  ext <;> norm_num [Shelly.Vec3.add, Shelly.Vec3.scale]

/-- On the unit sphere, `Surface` is plain normalization. -/
theorem surface_unit (v : Vec3) (hv : 0 < v.lengthSq) :
    e111.Surface v = v.normalized := by
  have hl : 0 < v.length := Real.sqrt_pos.mpr hv
  have hlsq : v.length * v.length = v.lengthSq := Real.mul_self_sqrt (le_of_lt hv)
  unfold Shelly.e111 Shelly.Ellipsoid.Surface Shelly.Ellipsoid.set
  simp only [Shelly.Vec3.normalized]
  have harg : v.x / v.length * (v.x / v.length) * (1 / (1 * 1)) +
      v.y / v.length * (v.y / v.length) * (1 / (1 * 1)) +
      v.z / v.length * (v.z / v.length) * (1 / (1 * 1)) = 1 := by
    rw [Shelly.Vec3.lengthSq] at hlsq
    field_simp
    nlinarith [hlsq]
  rw [harg]
  norm_num [Shelly.Vec3.scale]

/-- The first cut-line vertex `CutFloor` creates on `shell6` sits at
`Surface((2/5, 0, -4/5))`, whose height is `-sqrt(4/5) ≈ -0.894`, strictly
below `base - 1e-6 = -0.800001`. -/
theorem surface_c0_below :
    (e111.Surface ⟨2/5, 0, -4/5⟩).z < -4/5 - 1e-6 := by
  rw [surface_unit _ (by norm_num [Shelly.Vec3.lengthSq])]
  have hsq : (Vec3.mk (2/5) 0 (-4/5)).lengthSq = 4/5 := by
    norm_num [Shelly.Vec3.lengthSq]
  have hlen : (Vec3.mk (2/5) 0 (-4/5)).length = Real.sqrt (4/5) := by
    rw [Shelly.Vec3.length, hsq]
  have hs_pos : 0 < Real.sqrt (4/5) := Real.sqrt_pos.mpr (by norm_num)
  have hss : Real.sqrt (4/5) * Real.sqrt (4/5) = 4/5 :=
    Real.mul_self_sqrt (by norm_num)
  simp only [Shelly.Vec3.normalized, hlen]
  show (-4/5 : ℝ) / Real.sqrt (4/5) < -4/5 - 1e-6
  rw [div_lt_iff hs_pos]
  nlinarith [hss, hs_pos]

/-- `List.range 1` is the one-panel index list. -/
theorem range_one : List.range 1 = [0] := by decide

set_option maxHeartbeats 4000000 in
/-- C6: evaluation of `CutFloor` on `shell6` (three edges yielding exactly 2
base-plane intersections, exactly 1 corner above).  The structural part of
the claim matches the code — 2 vertices, 3 edges and 1 capping panel are
appended and the original panel is deactivated — but the new cut-line
vertices carry no constraints (`AddVertex` drops them) and sit at
`Surface(cutEnd)`, which for a base below the equator lies strictly below
`base - 1e-6`: the capping panel violates the claimed height bound. -/
theorem cutFloor_capping_below_base :
    shell6.cutFloor.1.vertices.length = 5 ∧
    shell6.cutFloor.1.edges.length = 6 ∧
    shell6.cutFloor.1.panels.length = 2 ∧
    (shell6.cutFloor.1.getP 0).alive = false ∧
    (shell6.cutFloor.1.getP 1).alive = true ∧
    (shell6.cutFloor.1.getP 1).corners = [3, 4, 0] ∧
    (shell6.cutFloor.1.getV 3).constraints = [] ∧
    (shell6.cutFloor.1.getV 3).position.z < shell6.Base - 1e-6 := by
  have ha0 : ((-3 : ℝ)/5) > -4/5 := by norm_num
  have ha1 : ¬((-1 : ℝ) > -4/5) := by norm_num
  have ha2 : ¬((-12 : ℝ)/13 > -4/5) := by norm_num
  have hpos : (shell6.cutFloor.1.getV 3).position = e111.Surface ⟨2/5, 0, -4/5⟩ := by
    norm_num [Shelly.EShell.cutFloor, Shelly.cutFloorStep, Shelly.shell6,
      Shelly.EShell.addVertex, Shelly.EShell.addEdge, Shelly.EShell.addPanel,
      Shelly.EShell.removePanel, Shelly.EShell.getV, Shelly.EShell.getE, Shelly.EShell.getP,
      Shelly.EShell.updV, Shelly.EShell.updE, Shelly.EShell.updP, Shelly.listModify,
      Shelly.appendUnique, Shelly.Edge.From, Shelly.panelCutEnds, List.getD, range_one,
      List.foldl_cons, List.foldl_nil, List.length_cons, List.length_nil,
      shell6_cut_edge0, shell6_cut_edge1, shell6_cut_edge2, ha0, ha1, ha2,
      List.mem_cons, List.mem_singleton, List.not_mem_nil]
  refine ⟨?_, ?_, ?_, ?_, ?_, ?_, ?_, ?_⟩
  rotate_left 7
  · rw [hpos]
    simp only [Shelly.shell6]
    linarith [surface_c0_below]
  all_goals
    norm_num [Shelly.EShell.cutFloor, Shelly.cutFloorStep, Shelly.shell6,
      Shelly.EShell.addVertex, Shelly.EShell.addEdge, Shelly.EShell.addPanel,
      Shelly.EShell.removePanel, Shelly.EShell.getV, Shelly.EShell.getE, Shelly.EShell.getP,
      Shelly.EShell.updV, Shelly.EShell.updE, Shelly.EShell.updP, Shelly.listModify,
      Shelly.appendUnique, Shelly.Edge.From, Shelly.panelCutEnds, List.getD, range_one,
      List.foldl_cons, List.foldl_nil, List.length_cons, List.length_nil,
      shell6_cut_edge0, shell6_cut_edge1, shell6_cut_edge2, ha0, ha1, ha2,
      List.mem_cons, List.mem_singleton, List.not_mem_nil]

/-- A successful `Except` bind decomposes into successes of both stages. -/
theorem except_bind_ok {α β : Type} (x : Except Failure α) (f : α → Except Failure β)
    (b : β) (h : (x >>= f) = Except.ok b) : ∃ a, x = Except.ok a ∧ f a = Except.ok b := by
  cases x with
  | ok a => exact ⟨a, rfl, h⟩
  | error e =>
    simp only [bind, Except.bind] at h
    exact Except.noConfusion h

/-- If a `forM` pass over a list succeeds, every element's check succeeded. -/
theorem forM_ok {α : Type} (f : α → Except Failure Unit) :
    ∀ l : List α, l.forM f = Except.ok () → ∀ x ∈ l, f x = Except.ok () := by
  intro l
  induction l with
  | nil => intro _ x hx; cases hx
  | cons a as ih =>
    intro h x hx
    rw [show (a :: as).forM f = f a >>= fun _ => as.forM f from rfl] at h
    obtain ⟨u, hu, hrest⟩ := except_bind_ok _ _ _ h
    rcases List.mem_cons.mp hx with rfl | hmem
    · cases u; exact hu
    · exact ih hrest x hmem

/-- C9 amended: every geometry-consistency fault is detected and reported with
a message identifying the offending element and invariant, but never as a
recoverable error value: a non-incident vertex aborts in `Edge.From`; a
vertex, edge or panel violating its count invariants aborts in the
`CheckGeometry` element checks, hence any such element anywhere in the shell
aborts `CheckGeometry` itself; and a plane-cut panel whose intersection count
is neither 0 nor 2 makes `CutFloor` print an error naming the panel and skip
it, leaving the state unchanged. -/
theorem geometry_faults_abort :
    (∀ (ed : Edge) (v : ℕ), ed.vertices.getD 0 0 ≠ v → ed.vertices.getD 1 0 ≠ v →
      ∃ m, ed.From v = Except.error (Failure.fatalAbort m)) ∧
    (∀ vt : Vertex, vt.edges.length < 2 ∨ vt.panels.length > 6 →
      ∃ m, checkVertex vt = Except.error (Failure.fatalAbort m)) ∧
    (∀ ed : Edge, ed.vertices.length ≠ 2 ∨ ed.panels.length > 2 ∨ ed.panels.length < 1 →
      ∃ m, checkEdge ed = Except.error (Failure.fatalAbort m)) ∧
    (∀ p : Panel, p.corners.length ≠ 3 ∨ p.edges.length ≠ 3 →
      ∃ m, checkPanel p = Except.error (Failure.fatalAbort m)) ∧
    (∀ e : EShell,
      ((∃ vt ∈ e.vertices, vt.edges.length < 2 ∨ vt.panels.length > 6) ∨
       (∃ ed ∈ e.edges,
         ed.vertices.length ≠ 2 ∨ ed.panels.length > 2 ∨ ed.panels.length < 1) ∨
       (∃ p ∈ e.panels, p.corners.length ≠ 3 ∨ p.edges.length ≠ 3)) →
      ∃ m, e.checkGeometry = Except.error (Failure.fatalAbort m)) ∧
    (∀ (floor : Plane) (acc : EShell × List String) (pNo : ℕ),
      (panelCutEnds floor acc.1 (acc.1.getP pNo)).length ≠ 2 →
      (panelCutEnds floor acc.1 (acc.1.getP pNo)).length ≠ 0 →
      cutFloorStep floor acc pNo =
        (acc.1, acc.2 ++ [cutEndsMsg pNo (panelCutEnds floor acc.1 (acc.1.getP pNo)).length])) := by
  have hFrom : ∀ (ed : Edge) (v : ℕ), ed.vertices.getD 0 0 ≠ v → ed.vertices.getD 1 0 ≠ v →
      ∃ m, ed.From v = Except.error (Failure.fatalAbort m) := by
    intro ed v h0 h1
    refine ⟨fromFatalMsg v ed.serial, ?_⟩
    simp only [Shelly.Edge.From]
    rw [if_pos h0, if_pos h1]
  have hVert : ∀ vt : Vertex, vt.edges.length < 2 ∨ vt.panels.length > 6 →
      ∃ m, checkVertex vt = Except.error (Failure.fatalAbort m) := by
    intro vt hv
    by_cases hlt : vt.edges.length < 2
    · refine ⟨vertexEdgesMsg vt.serial vt.edges.length, ?_⟩
      simp only [Shelly.checkVertex]
      rw [if_pos hlt]
    · rcases hv with h | h
      · exact absurd h hlt
      · refine ⟨vertexPanelsMsg vt.serial vt.panels.length, ?_⟩
        simp only [Shelly.checkVertex]
        rw [if_neg hlt, if_pos (Or.inl h)]
  have hEdge : ∀ ed : Edge,
      ed.vertices.length ≠ 2 ∨ ed.panels.length > 2 ∨ ed.panels.length < 1 →
      ∃ m, checkEdge ed = Except.error (Failure.fatalAbort m) := by
    intro ed he
    by_cases hnv : ed.vertices.length ≠ 2
    · refine ⟨edgeVerticesMsg ed.serial ed.vertices.length, ?_⟩
      simp only [Shelly.checkEdge]
      rw [if_pos hnv]
    · rcases he with h | h
      · exact absurd h hnv
      · refine ⟨edgePanelsMsg ed.serial ed.panels.length, ?_⟩
        simp only [Shelly.checkEdge]
        rw [if_neg hnv, if_pos h]
  have hPanel : ∀ p : Panel, p.corners.length ≠ 3 ∨ p.edges.length ≠ 3 →
      ∃ m, checkPanel p = Except.error (Failure.fatalAbort m) := by
    intro p hp
    by_cases hnv : p.corners.length ≠ 3
    · refine ⟨panelCornersMsg p.serial p.corners.length, ?_⟩
      simp only [Shelly.checkPanel]
      rw [if_pos hnv]
    · rcases hp with h | h
      · exact absurd h hnv
      · refine ⟨panelEdgesMsg p.serial p.edges.length, ?_⟩
        simp only [Shelly.checkPanel]
        rw [if_neg hnv, if_pos h]
  refine ⟨hFrom, hVert, hEdge, hPanel, ?_, ?_⟩
  · intro e hfault
    cases hr : e.checkGeometry with
    | error f =>
      cases f with
      | fatalAbort m => exact ⟨m, rfl⟩
    | ok u =>
      exfalso
      cases u
      unfold Shelly.EShell.checkGeometry at hr
      obtain ⟨u1, hv, hrest⟩ := except_bind_ok _ _ _ hr
      cases u1
      obtain ⟨u2, he, hp⟩ := except_bind_ok _ _ _ hrest
      cases u2
      rcases hfault with ⟨vt, hmem, hbad⟩ | ⟨ed, hmem, hbad⟩ | ⟨p, hmem, hbad⟩
      · obtain ⟨m, hm⟩ := hVert vt hbad
        have := forM_ok checkVertex e.vertices hv vt hmem
        rw [hm] at this
        exact Except.noConfusion this
      · obtain ⟨m, hm⟩ := hEdge ed hbad
        have := forM_ok checkEdge e.edges he ed hmem
        rw [hm] at this
        exact Except.noConfusion this
      · obtain ⟨m, hm⟩ := hPanel p hbad
        have := forM_ok checkPanel e.panels hp p hmem
        rw [hm] at this
        exact Except.noConfusion this
  · intro floor acc pNo h2 h0
    simp only [Shelly.cutFloorStep]
    rw [if_neg h2, if_pos h0]

/-- Witness for the amended C9 statement: the abort part applied at a second
concrete edge, and the print-and-skip part applied to `shell9`, whose single
panel yields exactly 1 cut end with the base plane. -/
theorem geometry_faults_abort_witness :
    (∃ m, edge91.From 9 = Except.error (Failure.fatalAbort m)) ∧
    cutFloorStep (Plane.new ⟨0, 0, -(4/5)⟩ ⟨0, 0, 1⟩) (shell9, []) 0 =
      (shell9, [cutEndsMsg 0 1]) := by
  have hlen : (panelCutEnds (Plane.new ⟨0, 0, -(4/5)⟩ ⟨0, 0, 1⟩) shell9
      (shell9.getP 0)).length = 1 := by
    norm_num [Shelly.panelCutEnds, Shelly.shell9, Shelly.EShell.getP, Shelly.EShell.getE,
      Shelly.EShell.getV, Shelly.Edge.From, List.getD, List.foldl_cons, List.foldl_nil,
      shell6_cut_edge0]
  constructor
  · exact geometry_faults_abort.1 edge91 9 (by simp [Shelly.edge91]) (by simp [Shelly.edge91])
  · have h := geometry_faults_abort.2.2.2.2.2 (Plane.new ⟨0, 0, -(4/5)⟩ ⟨0, 0, 1⟩)
      (shell9, []) 0
      (by rw [show ((shell9, ([] : List String)).1) = shell9 from rfl, hlen]; norm_num)
      (by rw [show ((shell9, ([] : List String)).1) = shell9 from rfl, hlen]; norm_num)
    rw [show ((shell9, ([] : List String)).1) = shell9 from rfl, hlen] at h
    simpa using h

end Facts

end Shelly
